import Mathlib

/-!
Verification of the timezone-aware date/time range picker
(`src/DateTimeRangePicker.tsx`) against its specification.

Conventions of the embedding:
* An `Instant` is an `Int` counting minutes since the Unix epoch
  (1970-01-01T00:00Z).  The picker only ever manipulates hours and
  minutes, so minute granularity is exact.
* A zoned wall-clock value `{year, month, day, hour, minute}` in a fixed
  timezone is likewise encoded as an `Int`: minutes since the epoch of
  the *local* calendar reading.  `wallMinutes` builds such a value from
  calendar fields, via the standard civil-from-days day count.
* A timezone is modelled over a window containing (at most) one UTC
  offset transition, which is exactly the shape every DST scenario in
  the specification exercises.
-/

/-- Number of days from 1970-01-01 to the civil date `y-m-d`
(proleptic Gregorian; the standard era-based civil day count). -/
def daysFromCivil (y m d : Int) : Int :=
  let y2 : Int := if m ≤ 2 then y - 1 else y
  let era : Int := Int.fdiv y2 400
  let yoe : Int := y2 - era * 400
  let mp : Int := if 2 < m then m - 3 else m + 9
  let doy : Int := Int.fdiv (153 * mp + 2) 5 + d - 1
  let doe : Int := yoe * 365 + Int.fdiv yoe 4 - Int.fdiv yoe 100 + doy
  era * 146097 + doe - 719468

/-- ISO (Monday-first) weekday index of the civil date `y-m-d`:
Monday ↦ 0, …, Sunday ↦ 6.  1970-01-01 was a Thursday (index 3). -/
def isoDow (y m d : Int) : Int :=
  Int.emod (daysFromCivil y m d + 3) 7

/-- Wall-clock minutes since the epoch of `y-m-d h:mi`. -/
def wallMinutes (y m d h mi : Int) : Int :=
  daysFromCivil y m d * 1440 + h * 60 + mi

/-- The calendar header row of the source
(`const weekDays = ['M', 'T', 'W', 'T', 'F', 'S', 'S']`,
src/DateTimeRangePicker.tsx line 34), Monday-first narrow names. -/
def weekDays : List Char := ['M', 'T', 'W', 'T', 'F', 'S', 'S']

/-- The narrow weekday name produced by
`Intl.DateTimeFormat('en', { timeZone: tz, weekday: 'narrow' })`
for a day whose ISO (Monday-first) index is `w`:
Monday ↦ 'M', Tuesday ↦ 'T', Wednesday ↦ 'W', Thursday ↦ 'T',
Friday ↦ 'F', Saturday ↦ 'S', Sunday ↦ 'S'. -/
def narrowName (w : Int) : Char :=
  if w = 0 then 'M'
  else if w = 1 then 'T'
  else if w = 2 then 'W'
  else if w = 3 then 'T'
  else if w = 4 then 'F'
  else 'S'

/-- The number of leading blank cells the source renders before day 1 of
the month `y-m` (src/DateTimeRangePicker.tsx lines 35-37):
`calendarDays[0]` is the instant of local midnight of day 1
(`getCalendarDays`, per the spec's `CalendarGrid.daysOf`), whose zoned
weekday equals the civil weekday of `y-m-1` in every timezone, and the
source takes `weekDays.indexOf` of its narrow weekday name. -/
def startIndex (y m : Int) : Int :=
  ((weekDays.indexOf (narrowName (isoDow y m 1)) : Nat) : Int)

/-- A timezone over a window containing one UTC-offset transition:
instants before `trans` carry offset `pre` (minutes to add to UTC to
obtain local wall-clock), instants at or after `trans` carry `post`. -/
structure SpecTimezone where
  pre : Int
  post : Int
  trans : Int
deriving DecidableEq, Repr

/-- UTC offset (in minutes) of the zone at instant `i`. -/
def offsetAt (tz : SpecTimezone) (i : Int) : Int :=
  if i < tz.trans then tz.pre else tz.post

/-- Modelled from the spec: `TimezoneClock.toZoned` (§4.1).  The
implementation behind `utcToZonedTime` is not under src/; the spec
requires the zone's actual offset at the instant.  Returns the
wall-clock minute reading of instant `i` in zone `tz`. -/
def toZoned (tz : SpecTimezone) (i : Int) : Int :=
  i + offsetAt tz i

/-- Modelled from the spec: `TimezoneClock.fromZoned` (§4.1).  The
implementation behind `zonedTimeToUtc` is not under src/; the spec fixes
the policy: for an ambiguous (fall-back) wall time prefer the earlier,
pre-transition instant; for a skipped (spring-forward) wall time shift
the wall clock forward by the gap, never fail.  `w - tz.pre` and
`w - tz.post` are the two candidate instants for wall reading `w`; a
candidate is genuine when its offset era matches. -/
def fromZoned (tz : SpecTimezone) (w : Int) : Int :=
  if w - tz.pre < tz.trans then
    if tz.trans ≤ w - tz.post then min (w - tz.pre) (w - tz.post) else w - tz.pre
  else
    if tz.trans ≤ w - tz.post then w - tz.post else w - tz.pre

/-- The wall reading `w` occurs twice in `tz` (fall-back repeated hour):
both candidate instants lie in their matching offset era. -/
def isAmbiguousWall (tz : SpecTimezone) (w : Int) : Prop :=
  w - tz.pre < tz.trans ∧ tz.trans ≤ w - tz.post

/-- The wall reading `w` never occurs in `tz` (spring-forward skipped
hour): neither candidate instant lies in its matching offset era. -/
def isSkippedWall (tz : SpecTimezone) (w : Int) : Prop :=
  tz.trans ≤ w - tz.pre ∧ w - tz.post < tz.trans

instance (tz : SpecTimezone) (w : Int) : Decidable (isAmbiguousWall tz w) := by
  unfold isAmbiguousWall; infer_instance

instance (tz : SpecTimezone) (w : Int) : Decidable (isSkippedWall tz w) := by
  unfold isSkippedWall; infer_instance

/-- America/New_York around the 2023 fall-back transition: EDT (UTC-4)
until 2023-11-05T06:00Z, EST (UTC-5) afterwards. -/
def nyFall : SpecTimezone :=
  ⟨-240, -300, wallMinutes 2023 11 5 6 0⟩

/-- America/New_York around the 2023 spring-forward transition: EST
(UTC-5) until 2023-03-12T07:00Z, EDT (UTC-4) afterwards. -/
def nySpring : SpecTimezone :=
  ⟨-300, -240, wallMinutes 2023 3 12 7 0⟩

/-- Zoned calendar date (day number) of instant `i` in `tz`. -/
def zonedDay (tz : SpecTimezone) (i : Int) : Int :=
  Int.fdiv (toZoned tz i) 1440

/-- Constraint configuration (`constraints` prop; spec §3 `Constraints`).
`min`/`max` bound the selectable instants, `blackouts` is a list of
calendar dates (day numbers, zone-relative), `minDuration`/`maxDuration`
bound `end - start` in minutes. -/
structure Constraints where
  min : Option Int
  max : Option Int
  blackouts : List Int
  minDuration : Option Int
  maxDuration : Option Int
deriving DecidableEq, Repr

/-- The validation error taxonomy of spec §7 (`Violation`). -/
inductive Violation where
  | belowMinimum
  | aboveMaximum
  | containsBlackout
  | tooShort
  | tooLong
deriving DecidableEq, Repr

/-- Rule 2: `constraints.min` present and `start < min`. -/
def belowMinB (c : Constraints) (sv : Int) : Bool :=
  match c.min with
  | some m => decide (sv < m)
  | none => false

/-- Rule 3: `constraints.max` present and `end > max`. -/
def aboveMaxB (c : Constraints) (ev : Int) : Bool :=
  match c.max with
  | some m => decide (m < ev)
  | none => false

/-- Rule 4: some blackout calendar date lies within `[start, end]`
inclusive, compared by zoned calendar date. -/
def blackoutB (tz : SpecTimezone) (c : Constraints) (sv ev : Int) : Bool :=
  c.blackouts.any (fun b => decide (zonedDay tz sv ≤ b) && decide (b ≤ zonedDay tz ev))

/-- Rule 5: `constraints.minDuration` present and `end - start` below it. -/
def tooShortB (c : Constraints) (sv ev : Int) : Bool :=
  match c.minDuration with
  | some dmin => decide (ev - sv < dmin)
  | none => false

/-- Rule 6: `constraints.maxDuration` present and `end - start` above it. -/
def tooLongB (c : Constraints) (sv ev : Int) : Bool :=
  match c.maxDuration with
  | some dmax => decide (dmax < ev - sv)
  | none => false

/-- Modelled from the spec: `RangeConstraintValidator.validate` (§4.3),
the `validateRange` helper the source imports from `./utils`, whose
implementation is not under src/.  Rules are evaluated in the spec's
fixed order, first violation wins; an absent endpoint is `Ok` (`none`).
The zone argument is the one used for the zoned-calendar-date blackout
comparison. -/
def validateRange (s e : Option Int) (c : Constraints) (tz : SpecTimezone) :
    Option Violation :=
  match s, e with
  | some sv, some ev =>
    bif belowMinB c sv then some Violation.belowMinimum
    else bif aboveMaxB c ev then some Violation.aboveMaximum
    else bif blackoutB tz c sv ev then some Violation.containsBlackout
    else bif tooShortB c sv ev then some Violation.tooShort
    else bif tooLongB c sv ev then some Violation.tooLong
    else none
  | _, _ => none

/-- Whether rule `v` is violated by the (present) endpoints `sv`, `ev`. -/
def ruleHolds (tz : SpecTimezone) (c : Constraints) (sv ev : Int) :
    Violation → Bool
  | Violation.belowMinimum => belowMinB c sv
  | Violation.aboveMaximum => aboveMaxB c ev
  | Violation.containsBlackout => blackoutB tz c sv ev
  | Violation.tooShort => tooShortB c sv ev
  | Violation.tooLong => tooLongB c sv ev

/-- The spec's fixed rule evaluation order (§4.3, rules 2-6). -/
def violationOrder : List Violation :=
  [Violation.belowMinimum, Violation.aboveMaximum, Violation.containsBlackout,
   Violation.tooShort, Violation.tooLong]

/-- Modelled from the spec: the `isDateDisabled` helper the source
imports from `./utils` (implementation not under src/).  Spec §4.4: a
date is disabled if it is before `constraints.min`, after
`constraints.max`, or on a blackout date compared by zoned calendar
date.  Keeps the source's argument order `(date, constraints, tz)`. -/
def isDateDisabled (d : Int) (c : Constraints) (tz : SpecTimezone) : Bool :=
  (match c.min with
   | some m => decide (d < m)
   | none => false) ||
  (match c.max with
   | some m => decide (m < d)
   | none => false) ||
  c.blackouts.any (fun b => decide (zonedDay tz d = b))

/-- The `DateTimeRange` value (spec §3): optional start and end instants
plus the display timezone id.  The source's `end` field is a Lean
keyword, embedded here as `stop`. -/
structure DateTimeRange where
  start : Option Int
  stop : Option Int
  timezone : String
deriving DecidableEq, Repr

/-- The branch logic of `handleDateSelect`
(src/DateTimeRangePicker.tsx lines 41-52), after the disabled guard:
no start, or both start and end, resets to a fresh partial range at the
clicked date; otherwise the click completes the range, swapping when
the clicked date is strictly before the pending start. -/
def applyClick (r : DateTimeRange) (d : Int) : DateTimeRange :=
  match r.start, r.stop with
  | none, _ => { r with start := some d, stop := none }
  | some _, some _ => { r with start := some d, stop := none }
  | some s, none =>
    if d < s then { r with start := some d, stop := some s }
    else { r with start := some s, stop := some d }

/-- `handleDateSelect`'s effect on the range value
(src/DateTimeRangePicker.tsx lines 39-57): a disabled date is a silent
no-op, otherwise `applyClick`. -/
def selectDate (resolve : String → SpecTimezone) (c : Constraints)
    (r : DateTimeRange) (d : Int) : DateTimeRange :=
  if isDateDisabled d c (resolve r.timezone) then r else applyClick r d

/-- Folding a sequence of date clicks through `selectDate`. -/
def runSelect (resolve : String → SpecTimezone) (c : Constraints)
    (r : DateTimeRange) (ds : List Int) : DateTimeRange :=
  ds.foldl (selectDate resolve c) r

/-- The ordering invariant of spec §3/§8: when both endpoints are
present, start ≤ end. -/
def ordered (r : DateTimeRange) : Prop :=
  ∀ a b, r.start = some a → r.stop = some b → a ≤ b

/-- An hour/minute record (the `startTime`/`endTime` local state,
src/DateTimeRangePicker.tsx lines 26-27). -/
structure HM where
  hour : Int
  minute : Int
deriving DecidableEq, Repr

/-- `zoned.setHours(hour, minute)` on a zoned wall-clock reading `w`:
keeps the zoned calendar day, overwrites the time of day (JavaScript
`setHours` normalizes overflowing fields into the date, which addition
reproduces exactly). -/
def setHM (w : Int) (t : HM) : Int :=
  Int.fdiv w 1440 * 1440 + t.hour * 60 + t.minute

/-- A preset (spec §3 `Preset`): modelled from the spec, since the
`Preset` type of `./types` is not under src/; `getRange` maps a
reference instant and timezone id to a concrete (start, end) pair. -/
structure Preset where
  label : String
  getRange : Int → String → Int × Int

/-- The component state relevant to the Apply gate: the controlled
`value`, the `startTime`/`endTime` records, and the `error` local state
(src/DateTimeRangePicker.tsx lines 24-28), here as an optional
`Violation` rather than its display string. -/
structure UiState where
  value : DateTimeRange
  startTime : HM
  endTime : HM
  errorCache : Option Violation

/-- The mutation events of the component: a calendar date click
(`handleDateSelect`), a time-field edit (`handleTimeChange`; `isStart`
selects the endpoint, `isHour` the field), a preset click
(`handlePresetSelect`, with the current `now`), and a timezone select
change (src/DateTimeRangePicker.tsx line 141). -/
inductive UiEvent where
  | dateClick (d : Int)
  | timeEdit (isStart : Bool) (isHour : Bool) (v : Int)
  | presetSelect (p : Preset) (now : Int)
  | tzChange (z : String)

/-- Overwrite one field of an hour/minute record
(`{ ...startTime, [field]: val }`). -/
def updHM (t : HM) (isHour : Bool) (v : Int) : HM :=
  if isHour then { t with hour := v } else { t with minute := v }

/-- One step of the component's event handling, from the source's four
mutation handlers (src/DateTimeRangePicker.tsx lines 39-88 and 141):
* `dateClick`: disabled dates are a silent no-op (state untouched);
  otherwise the range is updated by `applyClick` and `error` is
  recomputed by `validateRange` on the new endpoints.
* `timeEdit`: the time record is merged, the affected endpoint (when
  present) is rewritten through `toZoned`/`setHours`/`fromZoned`, and
  `error` is recomputed on the new endpoints.
* `presetSelect`: the preset's range replaces start/end and `error` is
  unconditionally cleared (`setError(null)`, line 87) without
  validating.
* `tzChange`: only the `timezone` field of the value changes; `error`
  is left as-is. -/
def step (resolve : String → SpecTimezone) (c : Constraints)
    (s : UiState) : UiEvent → UiState
  | UiEvent.dateClick d =>
    let tz := resolve s.value.timezone
    if isDateDisabled d c tz then s
    else
      let v := applyClick s.value d
      { s with value := v, errorCache := validateRange v.start v.stop c tz }
  | UiEvent.timeEdit isStart isHour v =>
    let tz := resolve s.value.timezone
    let t := if isStart then updHM s.startTime isHour v else updHM s.endTime isHour v
    let newStart : Option Int :=
      if isStart then
        match s.value.start with
        | some i => some (fromZoned tz (setHM (toZoned tz i) t))
        | none => none
      else s.value.start
    let newStop : Option Int :=
      if isStart then s.value.stop
      else
        match s.value.stop with
        | some i => some (fromZoned tz (setHM (toZoned tz i) t))
        | none => none
    { value := { s.value with start := newStart, stop := newStop },
      startTime := if isStart then t else s.startTime,
      endTime := if isStart then s.endTime else t,
      errorCache := validateRange newStart newStop c tz }
  | UiEvent.presetSelect p now =>
    let rg := p.getRange now s.value.timezone
    { s with
      value := { s.value with start := some rg.1, stop := some rg.2 },
      errorCache := none }
  | UiEvent.tzChange z =>
    { s with value := { s.value with timezone := z } }

/-- Folding a sequence of UI events through `step`. -/
def runUi (resolve : String → SpecTimezone) (c : Constraints)
    (s : UiState) (evs : List UiEvent) : UiState :=
  evs.foldl (step resolve c) s

/-- The Apply button's enabled flag: the negation of
`disabled={!!error || !value.start || !value.end}`
(src/DateTimeRangePicker.tsx line 281). -/
def applyEnabled (s : UiState) : Bool :=
  s.errorCache.isNone && s.value.start.isSome && s.value.stop.isSome

/-- Events after which the source recomputes `error` from the current
endpoints: a date click on a non-disabled date, or any time edit. -/
def recomputes (resolve : String → SpecTimezone) (c : Constraints)
    (s : UiState) : UiEvent → Bool
  | UiEvent.dateClick d => !(isDateDisabled d c (resolve s.value.timezone))
  | UiEvent.timeEdit _ _ _ => true
  | UiEvent.presetSelect _ _ => false
  | UiEvent.tzChange _ => false

/-- A timezone-id resolver for concrete scenarios: every id resolves to
the New-York fall window (the scenarios below never cross it unless
they mean to). -/
def resolveNY : String → SpecTimezone := fun _ => nyFall

/-- Empty constraint set. -/
def csFree : Constraints := ⟨none, none, [], none, none⟩

/-- Constraints with only a one-hour minimum duration. -/
def csMinDur : Constraints := ⟨none, none, [], some 60, none⟩

/-- Constraints with only a lower instant bound. -/
def csMinBound : Constraints := ⟨some 10, none, [], none, none⟩

/-- Initial component state: empty range in America/New_York, default
time records, no error. -/
def s0 : UiState :=
  ⟨⟨none, none, "America/New_York"⟩, ⟨0, 0⟩, ⟨23, 59⟩, none⟩

/-- A degenerate preset mapping `now` to the empty-duration range
`(now, now)`. -/
def nowPreset : Preset := ⟨"Now", fun now _ => (now, now)⟩

/-! ## Helper lemmas -/

/-- `applyClick` never touches the `timezone` field. -/
lemma applyClick_timezone (r : DateTimeRange) (d : Int) :
    (applyClick r d).timezone = r.timezone := by
  rcases r with ⟨rs, re, rtz⟩
  cases rs with
  | none => rfl
  | some sv =>
    cases re with
    | none => by_cases hlt : d < sv <;> simp [applyClick, hlt]
    | some ev => rfl

/-- `applyEnabled` on a state whose cached error is a fresh
`validateRange` of its own endpoints agrees with the validation gate. -/
lemma applyEnabled_validate_iff (v : DateTimeRange) (t1 t2 : HM)
    (c : Constraints) (tz : SpecTimezone) :
    (applyEnabled ⟨v, t1, t2, validateRange v.start v.stop c tz⟩ = true ↔
      (v.start.isSome = true ∧ v.stop.isSome = true ∧
        validateRange v.start v.stop c tz = none)) := by
  simp only [applyEnabled, Bool.and_eq_true, Option.isNone_iff_eq_none]
  tauto

/-- A single `selectDate` preserves the ordering invariant. -/
lemma selectDate_preserves_ordered (resolve : String → SpecTimezone)
    (c : Constraints) (r : DateTimeRange) (d : Int) (h : ordered r) :
    ordered (selectDate resolve c r d) := by
  unfold selectDate
  by_cases hd : isDateDisabled d c (resolve r.timezone) = true
  · simpa [hd] using h
  · rw [Bool.not_eq_true] at hd
    simp only [hd, Bool.false_eq_true, if_false]
    rcases r with ⟨rs, re, rtz⟩
    cases rs with
    | none =>
      intro a b _ hb
      simp [applyClick] at hb
    | some sv =>
      cases re with
      | some ev =>
        intro a b _ hb
        simp [applyClick] at hb
      | none =>
        by_cases hlt : d < sv
        · intro a b ha hb
          simp [applyClick, hlt] at ha hb
          omega
        · intro a b ha hb
          simp [applyClick, hlt] at ha hb
          omega

/-! ## Claims -/

/-- C2: the spec requires the number of leading blank cells for month
`y-m` to equal the Monday-first (ISO) zoned weekday index of the first
day.  The source computes it as `weekDays.indexOf` of the narrow
weekday name, which collides on 'T' (Tuesday/Thursday) and 'S'
(Saturday/Sunday): June 2023 starts on a Thursday (ISO index 3) yet the
code renders 1 blank, and October 2023 starts on a Sunday (ISO index 6)
yet the code renders 5 blanks. -/
theorem c2_startIndex_narrow_name_collision :
    startIndex 2023 6 = 1 ∧ isoDow 2023 6 1 = 3 ∧
    startIndex 2023 10 = 5 ∧ isoDow 2023 10 1 = 6 := by
  decide

/-- C8: from an Empty range (no start) or a Complete range (both
endpoints present), a click on a non-disabled date yields a fresh
PartialStart: start is the clicked date, end is absent, the prior
complete range is discarded, and the timezone is untouched. -/
theorem c8_click_resets_to_partial_start (resolve : String → SpecTimezone)
    (c : Constraints) (r : DateTimeRange) (d : Int)
    (hfree : isDateDisabled d c (resolve r.timezone) = false)
    (hstate : r.start = none ∨ (r.start ≠ none ∧ r.stop ≠ none)) :
    selectDate resolve c r d = ⟨some d, none, r.timezone⟩ := by
  rcases r with ⟨rs, re, rtz⟩
  simp only [selectDate, hfree, Bool.false_eq_true, if_false]
  rcases hstate with h1 | ⟨h1, h2⟩
  · simp only at h1
    subst h1
    simp [applyClick]
  · simp only at h1 h2
    rcases Option.ne_none_iff_exists.mp h1 with ⟨a, ha⟩
    rcases Option.ne_none_iff_exists.mp h2 with ⟨b, hb⟩
    rw [← ha, ← hb]
    simp [applyClick]

/-- Witness for C8: clicking date 0 from the complete range (5, 9)
resets to the partial range starting at 0. -/
theorem c8_witness :
    isDateDisabled 0 csFree (resolveNY "America/New_York") = false ∧
    selectDate resolveNY csFree ⟨some 5, some 9, "America/New_York"⟩ 0 =
      ⟨some 0, none, "America/New_York"⟩ :=
  ⟨by decide,
   c8_click_resets_to_partial_start resolveNY csFree
     ⟨some 5, some 9, "America/New_York"⟩ 0 (by decide)
     (Or.inr ⟨by decide, by decide⟩)⟩

/-- C9: a click on a disabled date (before min, after max, or on a
blackout date by zoned calendar date) is a silent no-op: the whole
component state — range value, time records and error — is unchanged,
and so is the range returned by the selection step; nothing is thrown. -/
theorem c9_disabled_click_is_noop (resolve : String → SpecTimezone)
    (c : Constraints) (s : UiState) (d : Int)
    (h : isDateDisabled d c (resolve s.value.timezone) = true) :
    step resolve c s (UiEvent.dateClick d) = s ∧
    selectDate resolve c s.value d = s.value := by
  constructor
  · simp [step, h]
  · simp [selectDate, h]

/-- Witness for C9: with `min = 10`, clicking date 3 from the initial
state changes nothing. -/
theorem c9_witness :
    isDateDisabled 3 csMinBound (resolveNY s0.value.timezone) = true ∧
    (step resolveNY csMinBound s0 (UiEvent.dateClick 3) = s0 ∧
     selectDate resolveNY csMinBound s0.value 3 = s0.value) :=
  ⟨by decide, c9_disabled_click_is_noop resolveNY csMinBound s0 3 (by decide)⟩

/-- C10: changing the timezone field produces a range whose start and
end instants are exactly the current ones — switching the displayed
timezone never shifts, re-anchors or clears the selected instants. -/
theorem c10_timezone_change_preserves_instants
    (resolve : String → SpecTimezone) (c : Constraints) (s : UiState)
    (z : String) :
    (step resolve c s (UiEvent.tzChange z)).value.start = s.value.start ∧
    (step resolve c s (UiEvent.tzChange z)).value.stop = s.value.stop ∧
    (step resolve c s (UiEvent.tzChange z)).value.timezone = z :=
  ⟨rfl, rfl, rfl⟩

/-- C4: for a wall-clock reading that occurs twice because of a
fall-back transition, `fromZoned` returns the earlier, pre-transition
instant: the result is the pre-transition candidate, lies strictly
before the transition, reads back as the requested wall clock, and is
strictly earlier than the post-transition occurrence.  (Determinism is
immediate: `fromZoned` is a pure function of its arguments.) -/
theorem c4_fallback_prefers_earlier_instant (tz : SpecTimezone) (w : Int)
    (h : isAmbiguousWall tz w) :
    fromZoned tz w = w - tz.pre ∧
    fromZoned tz w < tz.trans ∧
    toZoned tz (fromZoned tz w) = w ∧
    fromZoned tz w < w - tz.post := by
  obtain ⟨h1, h2⟩ := h
  have hlt : w - tz.pre < w - tz.post := lt_of_lt_of_le h1 h2
  have hfz : fromZoned tz w = w - tz.pre := by
    unfold fromZoned
    rw [if_pos h1, if_pos h2]
    exact min_eq_left (le_of_lt hlt)
  refine ⟨hfz, ?_, ?_, ?_⟩
  · rw [hfz]; exact h1
  · rw [hfz]
    unfold toZoned offsetAt
    rw [if_pos h1]
    ring
  · rw [hfz]; exact hlt

/-- Shared concrete input: 2023-11-05 01:30 America/New_York wall time,
which occurs twice. -/
def wFall : Int := wallMinutes 2023 11 5 1 30

/-- Witness for C4: 2023-11-05 01:30 in America/New_York is ambiguous
and resolves to 2023-11-05T05:30Z, the pre-transition (EDT) occurrence. -/
theorem c4_witness :
    isAmbiguousWall nyFall wFall ∧
    (fromZoned nyFall wFall = wFall - nyFall.pre ∧
     fromZoned nyFall wFall < nyFall.trans ∧
     toZoned nyFall (fromZoned nyFall wFall) = wFall ∧
     fromZoned nyFall wFall < wFall - nyFall.post) ∧
    fromZoned nyFall wFall = wallMinutes 2023 11 5 5 30 :=
  ⟨by decide, c4_fallback_prefers_earlier_instant nyFall wFall (by decide),
   by decide⟩

/-- C5: for a wall-clock reading skipped by a spring-forward
transition, `fromZoned` does not fail: it returns the candidate shifted
forward by the gap, an instant at or after the transition whose
wall-clock reading is the requested one advanced by exactly the gap
duration `post - pre`, hence at or after the requested reading. -/
theorem c5_springforward_shifts_by_gap (tz : SpecTimezone) (w : Int)
    (h : isSkippedWall tz w) :
    fromZoned tz w = w - tz.pre ∧
    tz.trans ≤ fromZoned tz w ∧
    toZoned tz (fromZoned tz w) = w + (tz.post - tz.pre) ∧
    w ≤ toZoned tz (fromZoned tz w) := by
  obtain ⟨h1, h2⟩ := h
  have hfz : fromZoned tz w = w - tz.pre := by
    unfold fromZoned
    rw [if_neg (not_lt.mpr h1), if_neg (not_le.mpr h2)]
  have hto : toZoned tz (w - tz.pre) = w + (tz.post - tz.pre) := by
    unfold toZoned offsetAt
    rw [if_neg (not_lt.mpr h1)]
    ring
  refine ⟨hfz, ?_, ?_, ?_⟩
  · rw [hfz]; exact h1
  · rw [hfz]; exact hto
  · rw [hfz, hto]; omega

/-- Shared concrete input: 2023-03-12 02:30 America/New_York wall time,
which does not exist. -/
def wSpring : Int := wallMinutes 2023 3 12 2 30

/-- Witness for C5: 2023-03-12 02:30 in America/New_York is skipped and
resolves to 2023-03-12T07:30Z, the instant reading 03:30 EDT. -/
theorem c5_witness :
    isSkippedWall nySpring wSpring ∧
    (fromZoned nySpring wSpring = wSpring - nySpring.pre ∧
     nySpring.trans ≤ fromZoned nySpring wSpring ∧
     toZoned nySpring (fromZoned nySpring wSpring) =
       wSpring + (nySpring.post - nySpring.pre) ∧
     wSpring ≤ toZoned nySpring (fromZoned nySpring wSpring)) ∧
    fromZoned nySpring wSpring = wallMinutes 2023 3 12 7 30 ∧
    toZoned nySpring (fromZoned nySpring wSpring) = wallMinutes 2023 3 12 3 30 :=
  ⟨by decide, c5_springforward_shifts_by_gap nySpring wSpring (by decide),
   by decide, by decide⟩

/-- C6: when the wall-clock reading of instant `i` in zone `tz` is
neither ambiguous nor skipped by the transition, the zoned reading
round-trips: `fromZoned (toZoned i) = i`. -/
theorem c6_round_trip (tz : SpecTimezone) (i : Int)
    (h1 : ¬ isAmbiguousWall tz (toZoned tz i))
    (h2 : ¬ isSkippedWall tz (toZoned tz i)) :
    fromZoned tz (toZoned tz i) = i := by
  unfold isAmbiguousWall at h1
  unfold isSkippedWall at h2
  unfold fromZoned toZoned offsetAt at *
  by_cases hi : i < tz.trans
  · rw [if_pos hi] at h1 h2 ⊢
    split_ifs at * <;> omega
  · rw [if_neg hi] at h1 h2 ⊢
    split_ifs at * <;> omega

/-- Shared concrete input: noon 2023-06-10 UTC, far from the modelled
transition. -/
def iJune : Int := wallMinutes 2023 6 10 12 0

/-- Witness for C6: the June instant's New York reading is neither
ambiguous nor skipped, and converting it to a zoned reading and back is
the identity. -/
theorem c6_witness :
    (¬ isAmbiguousWall nyFall (toZoned nyFall iJune) ∧
     ¬ isSkippedWall nyFall (toZoned nyFall iJune)) ∧
    fromZoned nyFall (toZoned nyFall iJune) = iJune :=
  ⟨⟨by decide, by decide⟩, c6_round_trip nyFall iJune (by decide) (by decide)⟩

/-- C7: `validateRange` returns `Ok` (`none`) whenever either endpoint
is absent, and on present endpoints it returns exactly the first
violated rule of the spec's fixed order — below-minimum, above-maximum,
contains-blackout, too-short, too-long — so `Ok` is returned precisely
when no rule fires. -/
theorem c7_validate_first_violation_in_order (tz : SpecTimezone)
    (c : Constraints) :
    (∀ e, validateRange none e c tz = none) ∧
    (∀ s, validateRange s none c tz = none) ∧
    (∀ sv ev, validateRange (some sv) (some ev) c tz =
      violationOrder.find? (ruleHolds tz c sv ev)) := by
  refine ⟨fun e => rfl, fun s => ?_, fun sv ev => ?_⟩
  · cases s <;> rfl
  · cases hb1 : belowMinB c sv <;> cases hb2 : aboveMaxB c ev <;>
      cases hb3 : blackoutB tz c sv ev <;> cases hb4 : tooShortB c sv ev <;>
      cases hb5 : tooLongB c sv ev <;>
      simp [validateRange, violationOrder, List.find?, ruleHolds,
        hb1, hb2, hb3, hb4, hb5]

/-- An initial range already violating the ordering invariant (as the
source's `InvalidRange` story constructs). -/
def rBad : DateTimeRange := ⟨some 5, some 2, "America/New_York"⟩

/-- Counterexample to C3 as stated: from the initial range (5, 2) — the
source's type does not prevent an unordered initial value — a sequence
consisting of one disabled-date click (date 3 with `min = 10`) leaves
the range unchanged, so the result has both endpoints present with
start strictly after end. -/
theorem c3_counterexample :
    ¬ ordered (runSelect resolveNY csMinBound rBad [3]) := by
  intro h
  have h52 := h 5 2 rfl rfl
  omega

/-- C3 (amended): provided the initial range satisfies the invariant
(absent endpoint or start ≤ end), every finite sequence of `selectDate`
transitions preserves it; moreover a non-disabled click on a date
strictly before the pending start of a PartialStart range completes the
range swapped — the clicked date becomes start and the prior start
becomes end — never a rejection. -/
theorem c3_selectDate_preserves_ordering (resolve : String → SpecTimezone)
    (c : Constraints) (r0 : DateTimeRange) (ds : List Int)
    (h : ordered r0) :
    ordered (runSelect resolve c r0 ds) ∧
    (∀ a d, r0.start = some a → r0.stop = none →
      isDateDisabled d c (resolve r0.timezone) = false → d < a →
      selectDate resolve c r0 d = ⟨some d, some a, r0.timezone⟩) := by
  constructor
  · induction ds generalizing r0 with
    | nil => exact h
    | cons x xs ih =>
      exact ih (selectDate resolve c r0 x)
        (selectDate_preserves_ordered resolve c r0 x h)
  · intro a d ha hb hfree hlt
    rcases r0 with ⟨rs, re, rtz⟩
    simp only at ha hb
    subst ha
    subst hb
    simp [selectDate, hfree, applyClick, hlt]

/-- A well-formed partial initial range. -/
def rPart : DateTimeRange := ⟨some 8, none, "America/New_York"⟩

/-- Witness for C3 (amended): the empty initial range stays ordered
through the clicks 10 then 5 (which swap), and from the partial range
starting at 8 a click on 2 yields the swapped complete range (2, 8). -/
theorem c3_witness :
    ordered (runSelect resolveNY csFree s0.value [10, 5]) ∧
    selectDate resolveNY csFree rPart 2 =
      ⟨some 2, some 8, "America/New_York"⟩ :=
  ⟨(c3_selectDate_preserves_ordering resolveNY csFree s0.value [10, 5]
      (fun a b ha _ => by cases ha)).1,
   (c3_selectDate_preserves_ordering resolveNY csFree rPart []
      (fun a b _ hb => by cases hb)).2 8 2 rfl rfl (by decide) (by decide)⟩

/-- The component state after applying the degenerate `(now, now)`
preset from the initial state under a one-hour minimum duration. -/
def c1Final : UiState :=
  runUi resolveNY csMinDur s0 [UiEvent.presetSelect nowPreset 0]

/-- Counterexample to C1 as stated: after a preset application whose
resulting range violates the one-hour minimum duration, the Apply
button is enabled — `handlePresetSelect` sets the cached error to null
without validating — even though `validateRange` on the current
endpoints is not Ok.  The gate is therefore cached, not recomputed, on
this reachable state. -/
theorem c1_counterexample :
    applyEnabled c1Final = true ∧
    validateRange c1Final.value.start c1Final.value.stop csMinDur
      (resolveNY c1Final.value.timezone) ≠ none := by
  refine ⟨rfl, ?_⟩
  decide

/-- C1 (amended): the Apply gate equals "start present, end present and
validation Ok" after exactly those mutations that recompute the error —
a date click on a non-disabled date, or a time edit.  After a preset
application (which clears the error unconditionally) or a timezone
change (which leaves the previous error), the gate can disagree with
the current validation result. -/
theorem c1_apply_gate_when_recomputed (resolve : String → SpecTimezone)
    (c : Constraints) (s : UiState) (e : UiEvent)
    (h : recomputes resolve c s e = true) :
    (applyEnabled (step resolve c s e) = true ↔
      ((step resolve c s e).value.start.isSome = true ∧
       (step resolve c s e).value.stop.isSome = true ∧
       validateRange (step resolve c s e).value.start
         (step resolve c s e).value.stop c
         (resolve (step resolve c s e).value.timezone) = none)) := by
  cases e with
  | dateClick d =>
    simp only [recomputes, Bool.not_eq_true', Bool.not_eq_eq_eq_not] at h
    have hd : isDateDisabled d c (resolve s.value.timezone) = false := by
      simpa using h
    simp only [step, hd, Bool.false_eq_true, if_false]
    rw [applyClick_timezone]
    exact applyEnabled_validate_iff (applyClick s.value d) s.startTime s.endTime
      c (resolve s.value.timezone)
  | timeEdit isStart isHour v =>
    simp only [step]
    exact applyEnabled_validate_iff _ _ _ c (resolve s.value.timezone)
  | presetSelect p now => exact Bool.noConfusion h
  | tzChange z => exact Bool.noConfusion h

/-- Witness for C1 (amended): clicking date 7 from the initial state
recomputes the gate, and the gate then agrees with validation. -/
theorem c1_witness :
    recomputes resolveNY csMinDur s0 (UiEvent.dateClick 7) = true ∧
    (applyEnabled (step resolveNY csMinDur s0 (UiEvent.dateClick 7)) = true ↔
      ((step resolveNY csMinDur s0 (UiEvent.dateClick 7)).value.start.isSome = true ∧
       (step resolveNY csMinDur s0 (UiEvent.dateClick 7)).value.stop.isSome = true ∧
       validateRange (step resolveNY csMinDur s0 (UiEvent.dateClick 7)).value.start
         (step resolveNY csMinDur s0 (UiEvent.dateClick 7)).value.stop csMinDur
         (resolveNY (step resolveNY csMinDur s0 (UiEvent.dateClick 7)).value.timezone) =
           none)) :=
  ⟨by decide,
   c1_apply_gate_when_recomputed resolveNY csMinDur s0 (UiEvent.dateClick 7)
     (by decide)⟩
